import Mathlib

/-
Verification of the session-synchronization core of the VR_Server repository.

Embedded source files:
  src/Minimal/NetworkData.h   -- Packet struct, serialize/deserialize (raw memcpy)
  src/Minimal/ServerGame.h    -- peer state fields and their initial values
  src/Minimal/ServerGame.cpp  -- receiveFromClients record walk, merge, sendActionPackets

The wire format is the in-memory layout of `struct Packet` on the original
x86/x64 MSVC little-endian target:
  offset  0: unsigned int packet_type        (4 bytes, little-endian)
  offset  4: std::pair<int,int> attack       (two 4-byte two's-complement ints)
  offset 12: std::pair<int,int> damage       (two 4-byte two's-complement ints)
  offset 20: bool done                       (1 byte, then 3 padding bytes)
  offset 24: glm::mat4 headPose              (16 x 4-byte floats, kept as raw
                                              32-bit patterns: memcpy only moves bits)
  sizeof(Packet) = 88
-/

namespace VRServer

/-- Little-endian 4-byte encoding of a 32-bit word (one `memcpy`d field). -/
def encU32 (n : Nat) : List Nat :=
  [n % 256, n / 256 % 256, n / 65536 % 256, n / 16777216 % 256]

/-- Little-endian 4-byte read of a 32-bit word; bytes past the end read as 0. -/
def readU32 : List Nat → Nat
  | b0 :: b1 :: b2 :: b3 :: _ => b0 + 256 * b1 + 65536 * b2 + 16777216 * b3
  | [b0, b1, b2] => b0 + 256 * b1 + 65536 * b2
  | [b0, b1] => b0 + 256 * b1
  | [b0] => b0
  | [] => 0

/-- Two's-complement 4-byte encoding of a C `int`. -/
def encI32 (z : Int) : List Nat := encU32 (z % 4294967296).toNat

/-- Two's-complement 4-byte read of a C `int`. -/
def readI32 (bs : List Nat) : Int :=
  if readU32 bs < 2147483648 then (readU32 bs : Int) else (readU32 bs : Int) - 4294967296

/-- The single byte a C `bool` occupies (MSVC: true = 1, false = 0). -/
def doneByte (d : Bool) : Nat := if d then 1 else 0

/-- Read one byte; past the end reads as 0. -/
def readByte : List Nat → Nat
  | b :: _ => b
  | [] => 0

/-- Read `k` consecutive 32-bit words (the glm::mat4 float bit patterns). -/
def readWords : Nat → List Nat → List Nat
  | 0, _ => []
  | k + 1, bs => readU32 bs :: readWords k (bs.drop 4)

/-- Serialize the 16 words of a glm::mat4 (float bit patterns, in memory order). -/
def writePose (ws : List Nat) : List Nat := (ws.map encU32).flatten

/-- The enum PacketTypes of NetworkData.h: INIT_CONNECTION = 0. -/
def INIT_CONNECTION : Nat := 0

/-- The enum PacketTypes of NetworkData.h: ACTION_EVENT = 1. -/
def ACTION_EVENT : Nat := 1

/-- The Packet struct of NetworkData.h.  `headPose` is the glm::mat4 kept as its
16 raw 32-bit float patterns, since serialize/deserialize are plain memcpys. -/
structure Packet where
  packet_type : Nat
  attack : Int × Int
  damage : Int × Int
  done : Bool
  headPose : List Nat
deriving DecidableEq, Repr

/-- Packet::serialize of NetworkData.h: memcpy of the struct into the byte
buffer, field by field in layout order (padding bytes written as 0). -/
def Packet.serialize (p : Packet) : List Nat :=
  encU32 p.packet_type ++ (encI32 p.attack.1 ++ (encI32 p.attack.2 ++
    (encI32 p.damage.1 ++ (encI32 p.damage.2 ++
      (doneByte p.done :: 0 :: 0 :: 0 :: writePose p.headPose)))))

/-- Packet::deserialize of NetworkData.h: memcpy of sizeof(Packet) = 88 bytes
from the buffer into the struct, read field by field in layout order. -/
def Packet.deserialize (bs : List Nat) : Packet :=
  let r1 := bs.drop 4
  let r2 := r1.drop 4
  let r3 := r2.drop 4
  let r4 := r3.drop 4
  let r5 := r4.drop 4
  let r6 := r5.drop 4
  { packet_type := readU32 bs,
    attack := (readI32 r1, readI32 r2),
    damage := (readI32 r3, readI32 r4),
    done := readByte r5 != 0,
    headPose := readWords 16 r6 }

/-- A C `int` value: 32-bit two's-complement range. -/
def inI32 (z : Int) : Prop := -2147483648 ≤ z ∧ z < 2147483648

instance (z : Int) : Decidable (inI32 z) := by
  unfold inI32
  exact inferInstance

/-- A Packet representable by the C struct: 32-bit fields in range and a
16-word head pose. -/
def Packet.Valid (p : Packet) : Prop :=
  p.packet_type < 4294967296 ∧
  inI32 p.attack.1 ∧ inI32 p.attack.2 ∧ inI32 p.damage.1 ∧ inI32 p.damage.2 ∧
  p.headPose.length = 16 ∧ ∀ w ∈ p.headPose, w < 4294967296

instance (p : Packet) : Decidable p.Valid := by
  unfold Packet.Valid
  exact inferInstance

-- Codec helper lemmas -------------------------------------------------------

theorem readU32_encU32 (n : Nat) (r : List Nat) (h : n < 4294967296) :
    readU32 (encU32 n ++ r) = n := by
  simp only [encU32, List.cons_append, List.nil_append, readU32]
  omega

theorem drop_four_encU32 (n : Nat) (r : List Nat) : (encU32 n ++ r).drop 4 = r := rfl

theorem drop_four_encI32 (z : Int) (r : List Nat) : (encI32 z ++ r).drop 4 = r := rfl

theorem readI32_encI32 (z : Int) (r : List Nat) (h : inI32 z) :
    readI32 (encI32 z ++ r) = z := by
  obtain ⟨h1, h2⟩ := h
  have hz : (z % 4294967296).toNat < 4294967296 := by omega
  simp only [encI32, readI32, readU32_encU32 _ _ hz]
  split <;> omega

theorem readWords_writePose (ws : List Nat) (r : List Nat)
    (h : ∀ w ∈ ws, w < 4294967296) :
    readWords ws.length (writePose ws ++ r) = ws := by
  induction ws generalizing r with
  | nil => rfl
  | cons w ws ih =>
    simp only [writePose, List.map_cons, List.flatten_cons, List.append_assoc] at *
    simp only [List.length_cons, readWords, List.cons.injEq]
    refine ⟨readU32_encU32 w _ (h w (List.mem_cons_self w ws)), ?_⟩
    rw [drop_four_encU32]
    exact ih r (fun x hx => h x (List.mem_cons_of_mem w hx))

/-- Core codec fact: deserializing a buffer that starts with the serialized
bytes of a representable packet recovers that packet, whatever follows. -/
theorem deserialize_serialize_append (p : Packet) (rest : List Nat) (hp : p.Valid) :
    Packet.deserialize (p.serialize ++ rest) = p := by
  obtain ⟨t, a, d, dn, pose⟩ := p
  obtain ⟨h1, h2, h3, h4, h5, h6, h7⟩ := hp
  simp only at h1 h2 h3 h4 h5 h6 h7
  simp only [Packet.serialize, Packet.deserialize, List.append_assoc, List.cons_append,
    drop_four_encU32, drop_four_encI32, List.drop_succ_cons, List.drop_zero]
  rw [readU32_encU32 t _ h1, readI32_encI32 _ _ h2, readI32_encI32 _ _ h3,
    readI32_encI32 _ _ h4, readI32_encI32 _ _ h5]
  rw [show (16 : Nat) = pose.length from h6.symm, readWords_writePose pose rest h7]
  cases dn <;> simp [doneByte, readByte]

-- ServerGame state ----------------------------------------------------------

/-- The public peer-state fields of class ServerGame (ServerGame.h, lines 19-28).
glm::mat4 poses are kept as their 16 raw 32-bit float patterns. -/
structure GameState where
  my_attack : Int × Int
  other_attack : Int × Int
  my_damage : Int × Int
  other_damage : Int × Int
  my_headPose : List Nat
  other_headPose : List Nat
  game_mode : Bool
  my_done : Bool
  other_done : Bool
deriving DecidableEq, Repr

/-- The 16 float bit patterns of glm::mat4(1.0f): 1.0f = 0x3F800000 on the
diagonal, 0.0f elsewhere. -/
def identityPose : List Nat :=
  [1065353216, 0, 0, 0, 0, 1065353216, 0, 0, 0, 0, 1065353216, 0, 0, 0, 0, 1065353216]

/-- The in-class initializers of ServerGame.h: both attack and damage pairs
start at the sentinel (-1,-1), both poses at glm::mat4(1.0f), game_mode = true,
both done flags = false. -/
def initGameState : GameState :=
  { my_attack := (-1, -1), other_attack := (-1, -1),
    my_damage := (-1, -1), other_damage := (-1, -1),
    my_headPose := identityPose, other_headPose := identityPose,
    game_mode := true, my_done := false, other_done := false }

/-- The ACTION_EVENT case body of ServerGame::receiveFromClients
(ServerGame.cpp, lines 66-79): merge a decoded packet into the mirrored
other_* fields.  Both guards test only the pair's `first` component. -/
def mergeActionEvent (s : GameState) (p : Packet) : GameState :=
  let s1 := if p.attack.1 != -1 then { s with other_attack := p.attack, game_mode := true } else s
  let s2 := if p.damage.1 != -1 then { s1 with other_damage := p.damage } else s1
  { s2 with other_done := p.done, other_headPose := p.headPose }

/-- The outgoing packet built by ServerGame::sendActionPackets
(ServerGame.cpp, lines 101-106) from the current my_* fields. -/
def outPacket (s : GameState) : Packet :=
  { packet_type := ACTION_EVENT, attack := s.my_attack, damage := s.my_damage,
    done := s.my_done, headPose := s.my_headPose }

/-- ServerGame::sendActionPackets (ServerGame.cpp, lines 95-116): build the
outgoing packet from my_*, reset my_attack and my_damage to the sentinel,
serialize the packet once and hand the bytes to sendToAll.  (In the source the
reset happens textually before the serialize call, but the packet fields were
already copied, so the serialized bytes carry the pre-reset values.)
Returns the updated state and the byte record passed to sendToAll. -/
def sendActionPackets (s : GameState) : GameState × List Nat :=
  ({ s with my_attack := (-1, -1), my_damage := (-1, -1) }, (outPacket s).serialize)

/-- Modelled from the spec: ServerNetwork::sendToAll (ServerNetwork.cpp is not
part of the analysed sources; only its caller is).  Per spec section 4.1 it
writes an identical byte sequence to every session registered in the table at
the moment of the call. -/
def sendToAll (sessions : List Nat) (bytes : List Nat) : List (Nat × List Nat) :=
  sessions.map (fun sid => (sid, bytes))

-- The per-record switch and the buffer walk ---------------------------------

/-- One observable step of ServerGame::receiveFromClients: either an
ActionEvent record was merged into the mirrored state, or sendActionPackets
handed a serialized record to sendToAll (a broadcast). -/
inductive NetEvent where
  | merged : Packet → NetEvent
  | sent : List Nat → NetEvent
deriving DecidableEq, Repr

/-- True for broadcast events. -/
def isSent : NetEvent → Bool
  | NetEvent.sent _ => true
  | _ => false

/-- True for merge events. -/
def isMerged : NetEvent → Bool
  | NetEvent.merged _ => true
  | _ => false

/-- The switch on packet.packet_type in ServerGame::receiveFromClients
(ServerGame.cpp, lines 56-89): INIT_CONNECTION broadcasts the current outgoing
state; ACTION_EVENT merges then broadcasts; any other type only logs.
Returns the updated state and the ordered list of observable events. -/
def processPacket (s : GameState) (p : Packet) : GameState × List NetEvent :=
  if p.packet_type = INIT_CONNECTION then
    ((sendActionPackets s).1, [NetEvent.sent (sendActionPackets s).2])
  else if p.packet_type = ACTION_EVENT then
    ((sendActionPackets (mergeActionEvent s p)).1,
     [NetEvent.merged p, NetEvent.sent (sendActionPackets (mergeActionEvent s p)).2])
  else
    (s, [])

/-- The inner while loop of ServerGame::receiveFromClients (ServerGame.cpp,
lines 50-90): starting at offset i, while i < data_length, deserialize 88
bytes at offset i of the receive buffer, advance i by sizeof(Packet) = 88 and
process the record.  The fuel argument only bounds the recursion; with
fuel >= the number of remaining iterations it never runs out. -/
def walkFuel (buf : List Nat) (len : Nat) : Nat → Nat → GameState → GameState × List NetEvent
  | 0, _, s => (s, [])
  | fuel + 1, i, s =>
    if i < len then
      let pr := processPacket s (Packet.deserialize (buf.drop i))
      let rest := walkFuel buf len fuel (i + 88) pr.1
      (rest.1, pr.2 ++ rest.2)
    else (s, [])

/-- Processing of one session's receive buffer by ServerGame::receiveFromClients:
`buf` is the content of the network_data array, `len` the data_length returned
by receiveData.  fuel = len iterations always suffice (each iteration consumes
at least one unit of len - i). -/
def receiveBuffer (s : GameState) (buf : List Nat) (len : Nat) : GameState × List NetEvent :=
  walkFuel buf len len 0 s

/-- The list of packets the walk deserializes, in arrival order (same loop as
walkFuel, record extraction only). -/
def recordsFuel (buf : List Nat) (len : Nat) : Nat → Nat → List Packet
  | 0, _ => []
  | fuel + 1, i =>
    if i < len then Packet.deserialize (buf.drop i) :: recordsFuel buf len fuel (i + 88)
    else []

/-- The records one receive buffer yields under the source's truncating walk. -/
def recordsOf (buf : List Nat) (len : Nat) : List Packet := recordsFuel buf len len 0

/-- Sequential processing of an already-extracted record list (reference
formulation used to state arrival-order facts). -/
def processList : GameState → List Packet → GameState × List NetEvent
  | s, [] => (s, [])
  | s, p :: ps =>
    let pr := processPacket s p
    let rest := processList pr.1 ps
    (rest.1, pr.2 ++ rest.2)

/-- No merge event occurs after a send event (the formal reading of "all
inbound records are merged before any broadcast is sent"). -/
def noMergeAfterSend : List NetEvent → Bool
  | [] => true
  | e :: rest => (!(isSent e) || rest.all (fun x => !(isMerged x))) && noMergeAfterSend rest

-- Session table -------------------------------------------------------------

/-- The session-id counter of ServerGame (static unsigned int client_id) and
the table of registered session ids, in registration order. -/
structure SessionState where
  client_id : Nat
  sessions : List Nat
deriving DecidableEq, Repr

/-- ServerGame::ServerGame sets client_id = 0; the session table starts empty. -/
def initSessionState : SessionState := ⟨0, []⟩

/-- One ServerGame::update accept poll (ServerGame.cpp, lines 19-30): if
network->acceptNewClient(client_id) succeeds, the pending connection is
registered under the current client_id and client_id is incremented.
Modelled from the spec for the registration half: ServerNetwork.cpp is not
among the analysed sources; spec section 4.1 says acceptPending assigns the
next identifier and registers the transport handle. -/
def updateAccept : SessionState → Bool → SessionState
  | st, true => ⟨st.client_id + 1, st.sessions ++ [st.client_id]⟩
  | st, false => st

/-- A run of update ticks; each Bool says whether a connection was pending. -/
def runTicks : SessionState → List Bool → SessionState
  | st, [] => st
  | st, b :: bs => runTicks (updateAccept st b) bs

-- Walk lemmas ---------------------------------------------------------------

theorem walkFuel_stop (buf : List Nat) (len : Nat) (fuel i : Nat) (s : GameState)
    (h : len ≤ i) : walkFuel buf len fuel i s = (s, []) := by
  cases fuel with
  | zero => rfl
  | succ f => simp only [walkFuel]; rw [if_neg (by omega)]

theorem walkFuel_eq_processList (buf : List Nat) (len : Nat) :
    ∀ fuel i s, walkFuel buf len fuel i s = processList s (recordsFuel buf len fuel i) := by
  intro fuel
  induction fuel with
  | zero => intro i s; rfl
  | succ f ih =>
    intro i s
    simp only [walkFuel, recordsFuel]
    split
    · simp only [processList, ih]
    · rfl

theorem recordsFuel_length (buf : List Nat) (len : Nat) :
    ∀ fuel i, len - i ≤ fuel → (recordsFuel buf len fuel i).length = (len - i + 87) / 88 := by
  intro fuel
  induction fuel with
  | zero => intro i h; simp only [recordsFuel, List.length_nil]; omega
  | succ f ih =>
    intro i h
    simp only [recordsFuel]
    split
    · rename_i hi
      rw [List.length_cons, ih (i + 88) (by omega)]
      omega
    · rename_i hi
      simp only [List.length_nil]
      omega

theorem writePose_length (ws : List Nat) : (writePose ws).length = 4 * ws.length := by
  induction ws with
  | nil => rfl
  | cons w ws ih =>
    simp only [writePose, List.map_cons, List.flatten_cons, List.length_append,
      List.length_cons] at *
    simp only [encU32, List.length_cons, List.length_nil]
    omega

theorem serialize_length (p : Packet) (h : p.headPose.length = 16) :
    p.serialize.length = 88 := by
  simp only [Packet.serialize, List.length_append, List.length_cons, encU32, encI32,
    List.length_nil, writePose_length, h]

theorem recordsFuel_shift (x buf : List Nat) (len : Nat) :
    ∀ fuel i, recordsFuel (x ++ buf) (x.length + len) fuel (x.length + i) =
      recordsFuel buf len fuel i := by
  intro fuel
  induction fuel with
  | zero => intro i; rfl
  | succ f ih =>
    intro i
    simp only [recordsFuel]
    by_cases hi : i < len
    · rw [if_pos (by omega), if_pos hi, List.drop_append,
        show x.length + i + 88 = x.length + (i + 88) from by omega, ih]
    · rw [if_neg (by omega), if_neg hi]

theorem recordsFuel_concat (ps : List Packet) :
    ∀ fuel, (∀ p ∈ ps, p.Valid) → ps.length ≤ fuel →
      recordsFuel ((ps.map Packet.serialize).flatten) (88 * ps.length) fuel 0 = ps := by
  induction ps with
  | nil =>
    intro fuel hv hf
    cases fuel with
    | zero => rfl
    | succ f => simp [recordsFuel]
  | cons p ps ih =>
    intro fuel hv hf
    have hpv : p.Valid := hv p (List.mem_cons_self p ps)
    have hlen : (Packet.serialize p).length = 88 := serialize_length p hpv.2.2.2.2.2.1
    simp only [List.length_cons] at hf
    cases fuel with
    | zero => omega
    | succ f =>
      simp only [recordsFuel, List.map_cons, List.flatten_cons, List.length_cons]
      rw [if_pos (by omega), List.drop_zero, deserialize_serialize_append p _ hpv,
        List.cons.injEq]
      refine ⟨rfl, ?_⟩
      have hshift := recordsFuel_shift (Packet.serialize p) ((ps.map Packet.serialize).flatten)
        (88 * ps.length) f 0
      rw [hlen] at hshift
      rw [show (0 : Nat) + 88 = 88 + 0 from by omega,
        show 88 * (ps.length + 1) = 88 + 88 * ps.length from by omega, hshift]
      exact ih f (fun q hq => hv q (List.mem_cons_of_mem p hq)) (by omega)

theorem mergeActionEvent_game_mode (s : GameState) (p : Packet) :
    (mergeActionEvent s p).game_mode = s.game_mode ∨
      (mergeActionEvent s p).game_mode = true := by
  simp only [mergeActionEvent]
  split <;> split <;> simp

theorem sendActionPackets_game_mode (s : GameState) :
    ((sendActionPackets s).1).game_mode = s.game_mode := rfl

theorem processPacket_game_mode (s : GameState) (p : Packet) :
    ((processPacket s p).1).game_mode = s.game_mode ∨
      ((processPacket s p).1).game_mode = true := by
  simp only [processPacket]
  split
  · left; rfl
  · split
    · rcases mergeActionEvent_game_mode s p with h | h
      · left
        simpa [sendActionPackets_game_mode] using h
      · right
        simpa [sendActionPackets_game_mode] using h
    · left; rfl

theorem walkFuel_game_mode (buf : List Nat) (len : Nat) :
    ∀ fuel i s, ((walkFuel buf len fuel i s).1).game_mode = s.game_mode ∨
      ((walkFuel buf len fuel i s).1).game_mode = true := by
  intro fuel
  induction fuel with
  | zero => intro i s; left; rfl
  | succ f ih =>
    intro i s
    simp only [walkFuel]
    split
    · rcases ih (i + 88) (processPacket s (Packet.deserialize (buf.drop i))).1 with h | h
      · rcases processPacket_game_mode s (Packet.deserialize (buf.drop i)) with h2 | h2
        · left; rw [h, h2]
        · right; rw [h, h2]
      · right; exact h
    · left; rfl

theorem runTicks_spec (ticks : List Bool) :
    ∀ st : SessionState, runTicks st ticks =
      ⟨st.client_id + ticks.count true,
       st.sessions ++ List.range' st.client_id (ticks.count true)⟩ := by
  induction ticks with
  | nil => intro st; simp [runTicks, List.count_nil]
  | cons b bs ih =>
    intro st
    cases b with
    | true =>
      simp only [runTicks, updateAccept, ih, List.count_cons_self, List.range'_succ]
      simp [List.append_assoc, Nat.add_assoc, Nat.add_comm 1 (bs.count true)]
    | false =>
      simp only [runTicks, updateAccept, ih]
      simp [List.count_cons]

-- Concrete fixtures used by counterexamples and witnesses --------------------

/-- A 16-word head pose (all-zero float patterns). -/
def testPose : List Nat := List.replicate 16 0

/-- A representative ActionEvent packet: attack (3,4), damage (2,2), done. -/
def testPacket : Packet := ⟨1, (3, 4), (2, 2), true, testPose⟩

/-- An Init packet as a client sends on connecting. -/
def initPacket : Packet := ⟨0, (-1, -1), (-1, -1), false, testPose⟩

/-- An ActionEvent whose attack pair (-1, 7) is not the sentinel (-1,-1) but
has first component -1. -/
def pktFirstNeg : Packet := ⟨1, (-1, 7), (-1, -1), false, testPose⟩

/-- An ActionEvent whose attack pair (3, -7) has first component different
from -1 but is not a valid grid cell. -/
def pktSecondNeg : Packet := ⟨1, (3, -7), (2, 2), false, testPose⟩

/-- A peer state with a recorded previous attack and turnFlag cleared. -/
def stateWithAttack : GameState :=
  { initGameState with other_attack := (5, 5), game_mode := false }

-- Claim theorems -------------------------------------------------------------

/-- C1: for every valid Packet P, decoding the byte record produced by
encoding P yields a packet equal to P (deserialize after serialize is the
identity on representable packets). -/
theorem decode_encode_roundtrip (p : Packet) (hp : p.Valid) :
    Packet.deserialize p.serialize = p := by
  have h := deserialize_serialize_append p [] hp
  simpa using h

/-- C1 witness: the round trip evaluated at a concrete packet. -/
theorem decode_encode_roundtrip_witness :
    testPacket.Valid ∧ Packet.deserialize testPacket.serialize = testPacket :=
  ⟨by decide, decode_encode_roundtrip testPacket (by decide)⟩

/-- C2 counterexample: an ActionEvent record whose attack pair (-1, 7) is NOT
the sentinel (-1,-1); the claim demands otherAttack be set to it and turnFlag
set to true, but the merge (which tests only the first coordinate) leaves both
unchanged. -/
theorem merge_nonsentinel_attack_cex :
    pktFirstNeg.packet_type = ACTION_EVENT ∧
    pktFirstNeg.attack ≠ (-1, -1) ∧
    (mergeActionEvent stateWithAttack pktFirstNeg).other_attack = (5, 5) ∧
    (mergeActionEvent stateWithAttack pktFirstNeg).other_attack ≠ pktFirstNeg.attack ∧
    (mergeActionEvent stateWithAttack pktFirstNeg).game_mode = false := by decide

/-- C2 amended: the merge conditions test the pair's FIRST coordinate against
-1 (for inputs satisfying the spec's validity invariant this coincides with
the sentinel test): if attack.first is not -1, otherAttack := attack and
turnFlag := true, otherwise both unchanged; if damage.first is not -1,
otherDamage := damage, otherwise unchanged; otherDone and otherHeadPose are
overwritten unconditionally; and the record triggers exactly one broadcast of
the current outgoing state. -/
theorem merge_action_event_amended (s : GameState) (p : Packet)
    (h : p.packet_type = ACTION_EVENT) :
    (p.attack.1 ≠ -1 → (mergeActionEvent s p).other_attack = p.attack ∧
      (mergeActionEvent s p).game_mode = true) ∧
    (p.attack.1 = -1 → (mergeActionEvent s p).other_attack = s.other_attack ∧
      (mergeActionEvent s p).game_mode = s.game_mode) ∧
    (p.damage.1 ≠ -1 → (mergeActionEvent s p).other_damage = p.damage) ∧
    (p.damage.1 = -1 → (mergeActionEvent s p).other_damage = s.other_damage) ∧
    (mergeActionEvent s p).other_done = p.done ∧
    (mergeActionEvent s p).other_headPose = p.headPose ∧
    processPacket s p =
      ((sendActionPackets (mergeActionEvent s p)).1,
       [NetEvent.merged p, NetEvent.sent (sendActionPackets (mergeActionEvent s p)).2]) := by
  by_cases ha : p.attack.1 = -1 <;> by_cases hd : p.damage.1 = -1 <;>
    simp [mergeActionEvent, processPacket, h, ACTION_EVENT, INIT_CONNECTION, ha, hd, bne_iff_ne]

/-- C2 amended witness: the amended merge behavior at a concrete record. -/
theorem merge_action_event_amended_witness :
    pktSecondNeg.packet_type = ACTION_EVENT ∧
    ((pktSecondNeg.attack.1 ≠ -1 →
        (mergeActionEvent stateWithAttack pktSecondNeg).other_attack = pktSecondNeg.attack ∧
        (mergeActionEvent stateWithAttack pktSecondNeg).game_mode = true) ∧
     (pktSecondNeg.attack.1 = -1 →
        (mergeActionEvent stateWithAttack pktSecondNeg).other_attack = stateWithAttack.other_attack ∧
        (mergeActionEvent stateWithAttack pktSecondNeg).game_mode = stateWithAttack.game_mode) ∧
     (pktSecondNeg.damage.1 ≠ -1 →
        (mergeActionEvent stateWithAttack pktSecondNeg).other_damage = pktSecondNeg.damage) ∧
     (pktSecondNeg.damage.1 = -1 →
        (mergeActionEvent stateWithAttack pktSecondNeg).other_damage = stateWithAttack.other_damage) ∧
     (mergeActionEvent stateWithAttack pktSecondNeg).other_done = pktSecondNeg.done ∧
     (mergeActionEvent stateWithAttack pktSecondNeg).other_headPose = pktSecondNeg.headPose ∧
     processPacket stateWithAttack pktSecondNeg =
       ((sendActionPackets (mergeActionEvent stateWithAttack pktSecondNeg)).1,
        [NetEvent.merged pktSecondNeg,
         NetEvent.sent (sendActionPackets (mergeActionEvent stateWithAttack pktSecondNeg)).2])) :=
  ⟨by decide, merge_action_event_amended stateWithAttack pktSecondNeg (by decide)⟩

/-- C3 counterexample: a receive buffer reported as holding 1 byte.  The claim
says floor(1/88) = 0 records are decoded and the partial record is dropped,
but the source's walk decodes 1 record (reading stale buffer bytes). -/
theorem record_walk_floor_cex :
    (recordsOf (List.replicate 88 0) 1).length = 1 ∧ (1 : Nat) / 88 = 0 := by decide

/-- C3 amended: the walk decodes ceil(L/88) consecutive records in arrival
order; a trailing partial record is NOT dropped: it is decoded as a full
88-byte record whose tail bytes come from the buffer beyond the reported
length.  A buffer of exactly 3*88 bytes still yields exactly the 3 packets in
arrival order. -/
theorem record_walk_amended (p1 p2 p3 : Packet)
    (h1 : p1.Valid) (h2 : p2.Valid) (h3 : p3.Valid) :
    (∀ buf len, (recordsOf buf len).length = (len + 87) / 88) ∧
    recordsOf (p1.serialize ++ p2.serialize ++ p3.serialize) 264 = [p1, p2, p3] := by
  constructor
  · intro buf len
    have h := recordsFuel_length buf len len 0 (by omega)
    simpa using h
  · have hc := recordsFuel_concat [p1, p2, p3] 264
      (by
        intro q hq
        simp only [List.mem_cons, List.not_mem_nil, or_false] at hq
        rcases hq with rfl | rfl | rfl <;> assumption)
      (by simp)
    simp only [List.map_cons, List.map_nil, List.flatten_cons, List.flatten_nil,
      List.append_nil, List.length_cons, List.length_nil] at hc
    rw [recordsOf, show (264 : Nat) = 88 * (0 + 1 + 1 + 1) from rfl]
    rw [← List.append_assoc] at hc
    exact hc

/-- C3 amended witness: three concatenated concrete records decode to exactly
those three packets in order. -/
theorem record_walk_amended_witness :
    testPacket.Valid ∧
    recordsOf (testPacket.serialize ++ testPacket.serialize ++ testPacket.serialize) 264 =
      [testPacket, testPacket, testPacket] :=
  ⟨by decide,
   (record_walk_amended testPacket testPacket testPacket (by decide) (by decide) (by decide)).2⟩

/-- C4: every broadcast builds an ActionEvent packet from the current my_*
fields, serializes it once, hands those bytes to sendToAll (identical bytes
for every registered session), and afterwards my_attack and my_damage equal
the sentinel while my_headPose, my_done and all incoming mirrored fields are
unchanged. -/
theorem broadcast_consume_and_reset (s : GameState) (sess : List Nat) :
    (outPacket s).packet_type = ACTION_EVENT ∧
    (outPacket s).attack = s.my_attack ∧
    (outPacket s).damage = s.my_damage ∧
    (outPacket s).done = s.my_done ∧
    (outPacket s).headPose = s.my_headPose ∧
    (sendActionPackets s).2 = (outPacket s).serialize ∧
    (sendActionPackets s).1.my_attack = (-1, -1) ∧
    (sendActionPackets s).1.my_damage = (-1, -1) ∧
    (sendActionPackets s).1.my_headPose = s.my_headPose ∧
    (sendActionPackets s).1.my_done = s.my_done ∧
    (sendActionPackets s).1.other_attack = s.other_attack ∧
    (sendActionPackets s).1.other_damage = s.other_damage ∧
    (sendActionPackets s).1.other_headPose = s.other_headPose ∧
    (sendActionPackets s).1.other_done = s.other_done ∧
    (sendActionPackets s).1.game_mode = s.game_mode ∧
    sendToAll sess ((sendActionPackets s).2) =
      sess.map (fun sid => (sid, (outPacket s).serialize)) := by
  refine ⟨rfl, rfl, rfl, rfl, rfl, rfl, rfl, rfl, rfl, rfl, rfl, rfl, rfl, rfl, rfl, rfl⟩

/-- C5 counterexample: one receive buffer holding two concatenated ActionEvent
records.  The source broadcasts after each record, so a broadcast is sent
before the second record's bytes are merged — the tick's trace is
merge, send, merge, send, violating "all inbound bytes are merged before any
broadcast for that tick is sent". -/
theorem ordering_guarantee_cex :
    (receiveBuffer initGameState (testPacket.serialize ++ testPacket.serialize) 176).2 =
      [NetEvent.merged testPacket, NetEvent.sent (outPacket initGameState).serialize,
       NetEvent.merged testPacket, NetEvent.sent (outPacket initGameState).serialize] ∧
    noMergeAfterSend
      ((receiveBuffer initGameState (testPacket.serialize ++ testPacket.serialize) 176).2) =
      false := by decide

/-- C5 amended: within one tick the records of a receive buffer are processed
strictly in arrival order (the walk equals a sequential fold over the decoded
record list), and each record is decoded and merged before the broadcast that
THIS record triggers; but a broadcast triggered by an earlier record precedes
the merge of any later record in the same buffer. -/
theorem ordering_guarantee_amended :
    (∀ s buf len, receiveBuffer s buf len = processList s (recordsOf buf len)) ∧
    (∀ s p, noMergeAfterSend (processPacket s p).2 = true) := by
  constructor
  · intro s buf len
    exact walkFuel_eq_processList buf len len 0 s
  · intro s p
    simp only [processPacket]
    split
    · rfl
    · split <;> rfl

/-- C6 counterexample: a receive of 1 byte (fewer than the 88-byte record
size).  The claim says decode fails and the undersized record is discarded
without modifying peer state; the source instead decodes a full record from
the buffer (stale bytes included), merges it — changing other_attack — and
broadcasts. -/
theorem undersized_record_cex :
    (1 : Nat) < 88 ∧
    (receiveBuffer initGameState testPacket.serialize 1).1.other_attack = (3, 4) ∧
    initGameState.other_attack = (-1, -1) ∧
    (receiveBuffer initGameState testPacket.serialize 1).2 ≠ [] := by decide

/-- C6 amended: decoding never fails; on a receive of fewer than 88 bytes the
walk still decodes ONE full 88-byte record from the buffer (its tail taken
from bytes beyond the reported length) and processes it normally, possibly
modifying peer state, before moving to the next session. -/
theorem undersized_record_amended (s : GameState) (buf : List Nat) (len : Nat)
    (h1 : 0 < len) (h2 : len < 88) :
    receiveBuffer s buf len = processPacket s (Packet.deserialize buf) := by
  unfold receiveBuffer
  cases len with
  | zero => omega
  | succ m =>
    simp only [walkFuel]
    rw [if_pos (by omega), List.drop_zero,
      walkFuel_stop buf (m + 1) m 88 _ (by omega)]
    simp

/-- C6 amended witness: the single-record processing of an undersized receive
at a concrete buffer. -/
theorem undersized_record_amended_witness :
    (0 : Nat) < 1 ∧ (1 : Nat) < 88 ∧
    receiveBuffer stateWithAttack testPacket.serialize 1 =
      processPacket stateWithAttack (Packet.deserialize testPacket.serialize) :=
  ⟨by decide, by decide,
   undersized_record_amended stateWithAttack testPacket.serialize 1 (by decide) (by decide)⟩

/-- C7: session identifiers are assigned starting at 0, incrementing by 1 per
accepted connection (the k-th accepted connection gets identifier k, so the
table equals range(number of accepts)), and an identifier is never reused
(the registered ids are pairwise distinct and the counter never decreases). -/
theorem session_id_assignment (ticks : List Bool) :
    (runTicks initSessionState ticks).sessions = List.range (ticks.count true) ∧
    (runTicks initSessionState ticks).client_id = ticks.count true ∧
    ((runTicks initSessionState ticks).sessions).Nodup := by
  have h := runTicks_spec ticks initSessionState
  rw [h]
  refine ⟨?_, ?_, ?_⟩
  · simp [initSessionState, List.range_eq_range']
  · simp [initSessionState]
  · simp only [initSessionState, List.nil_append, Nat.zero_add]
    rw [← List.range_eq_range']
    exact List.nodup_range _

/-- C8: an Init record modifies no incoming mirrored field (other_attack,
other_damage, other_headPose, other_done, turnFlag) and immediately triggers
exactly one broadcast of the current outgoing state, whose bytes are handed
identically to every registered session. -/
theorem init_record_handshake (s : GameState) (p : Packet) (sess : List Nat)
    (h : p.packet_type = INIT_CONNECTION) :
    (processPacket s p).1.other_attack = s.other_attack ∧
    (processPacket s p).1.other_damage = s.other_damage ∧
    (processPacket s p).1.other_headPose = s.other_headPose ∧
    (processPacket s p).1.other_done = s.other_done ∧
    (processPacket s p).1.game_mode = s.game_mode ∧
    (processPacket s p).2 = [NetEvent.sent ((outPacket s).serialize)] ∧
    sendToAll sess ((outPacket s).serialize) =
      sess.map (fun sid => (sid, (outPacket s).serialize)) := by
  simp [processPacket, h, INIT_CONNECTION, sendActionPackets, sendToAll]

/-- C8 witness: the Init handshake at a concrete state with two registered
sessions S = 0 and T = 1. -/
theorem init_record_handshake_witness :
    initPacket.packet_type = INIT_CONNECTION ∧
    ((processPacket stateWithAttack initPacket).1.other_attack = stateWithAttack.other_attack ∧
     (processPacket stateWithAttack initPacket).1.other_damage = stateWithAttack.other_damage ∧
     (processPacket stateWithAttack initPacket).1.other_headPose = stateWithAttack.other_headPose ∧
     (processPacket stateWithAttack initPacket).1.other_done = stateWithAttack.other_done ∧
     (processPacket stateWithAttack initPacket).1.game_mode = stateWithAttack.game_mode ∧
     (processPacket stateWithAttack initPacket).2 =
       [NetEvent.sent ((outPacket stateWithAttack).serialize)] ∧
     sendToAll [0, 1] ((outPacket stateWithAttack).serialize) =
       [0, 1].map (fun sid => (sid, (outPacket stateWithAttack).serialize))) :=
  ⟨by decide, init_record_handshake stateWithAttack initPacket [0, 1] (by decide)⟩

/-- C9: the merge decides presence of attack (and damage) by testing ONLY the
first coordinate against -1: a record with attack = (-1, y) never updates
otherAttack or turnFlag, whatever y is; a record with attack = (x, y), x not
-1, sets otherAttack to (x, y) even when the pair is not a valid grid cell. -/
theorem merge_tests_first_coordinate (s : GameState) (p : Packet) :
    (p.attack.1 = -1 → (mergeActionEvent s p).other_attack = s.other_attack ∧
      (mergeActionEvent s p).game_mode = s.game_mode) ∧
    (p.attack.1 ≠ -1 → (mergeActionEvent s p).other_attack = p.attack ∧
      (mergeActionEvent s p).game_mode = true) ∧
    (p.damage.1 = -1 → (mergeActionEvent s p).other_damage = s.other_damage) ∧
    (p.damage.1 ≠ -1 → (mergeActionEvent s p).other_damage = p.damage) := by
  by_cases ha : p.attack.1 = -1 <;> by_cases hd : p.damage.1 = -1 <;>
    simp [mergeActionEvent, ha, hd, bne_iff_ne]

/-- C9 witness: a record with attack (-1, 7) leaves other_attack untouched; a
record with attack (3, -7) (not a valid grid cell) is stored verbatim. -/
theorem merge_tests_first_coordinate_witness :
    (mergeActionEvent initGameState pktFirstNeg).other_attack = initGameState.other_attack ∧
    (mergeActionEvent initGameState pktSecondNeg).other_attack = (3, -7) :=
  ⟨((merge_tests_first_coordinate initGameState pktFirstNeg).1 (by decide)).1,
   ((merge_tests_first_coordinate initGameState pktSecondNeg).2.1 (by decide)).1⟩

/-- C10: turnFlag (game_mode) is initialized to true at construction, and
neither the merge of an ActionEvent, nor a broadcast, nor the processing of
any receive buffer ever sets it to false: each leaves it unchanged or sets it
to true. -/
theorem turn_flag_never_cleared :
    initGameState.game_mode = true ∧
    (∀ s p, (mergeActionEvent s p).game_mode = s.game_mode ∨
      (mergeActionEvent s p).game_mode = true) ∧
    (∀ s, ((sendActionPackets s).1).game_mode = s.game_mode) ∧
    (∀ s buf len, ((receiveBuffer s buf len).1).game_mode = s.game_mode ∨
      ((receiveBuffer s buf len).1).game_mode = true) := by
  refine ⟨rfl, mergeActionEvent_game_mode, sendActionPackets_game_mode, ?_⟩
  intro s buf len
  exact walkFuel_game_mode buf len len 0 s
